import Mathlib

/-!
Verification of the node-buster cache-busting loader.

The loader source is a UMD-wrapped module exposing `schema` (identity
parsing), a process-wide `loadedModules` registry, `load` (promise-based
script injection with a `cacheBuster` timestamp query parameter), `bust`
(an alias of `load`), and `$noConflict`.

Strings are modelled as lists of characters.  The host environment
(clock, URL resolver, DOM element creation/insertion failures) is
modelled as explicit data, and the observable actions of a call
(console warnings, promise settlement, hook invocation, element
insertion) are recorded as an event list.
-/

/-- JS `String.prototype.split` with a one-character separator.  The
result is never empty; splitting the empty string yields one empty
segment, as in JS. -/
def jsSplit (sep : Char) : List Char → List (List Char)
  | [] => [[]]
  | c :: cs =>
    match jsSplit sep cs with
    | [] => [[]]
    | h :: t => if c = sep then [] :: h :: t else (c :: h) :: t

/-- JS `String.prototype.includes` with a one-character argument. -/
def hasChar (sep : Char) : List Char → Bool
  | [] => false
  | c :: cs => if c = sep then true else hasChar sep cs

/-- The value of `url.split('/').pop()`: the final path segment. -/
def lastSeg (url : List Char) : List Char := (jsSplit '/' url).getLastD []

/-- The record returned by the loader's `schema` function. -/
structure Schema where
  moduleName : List Char
  version : List Char
deriving DecidableEq

/-- The identity parser `schema` from the loader source: take the final
path segment; if it contains a dot, split on dots and take `parts[0]`
as the module name and `parts[1]` as the version; otherwise the whole
segment is the name and the version is empty. -/
def schema (url : List Char) : Schema :=
  let moduleName := lastSeg url
  if hasChar '.' moduleName then
    let parts := jsSplit '.' moduleName
    { moduleName := parts.headD [], version := parts.getD 1 [] }
  else
    { moduleName := moduleName, version := [] }

/-- Spec-side description: the text of the final segment before its
first dot. -/
def beforeFirstDot (seg : List Char) : List Char :=
  seg.takeWhile (fun c => c != '.')

/-- Spec-side description: everything in the segment after its first
dot. -/
def afterFirstDot (seg : List Char) : List Char :=
  (seg.dropWhile (fun c => c != '.')).drop 1

/-- Spec-side description: the substring between the first and (if
present) second dot of the segment. -/
def betweenDots (seg : List Char) : List Char :=
  (afterFirstDot seg).takeWhile (fun c => c != '.')

/-- The decimal digit character for `d`. -/
def digitChar (d : Nat) : Char := Char.ofNat (48 + d)

/-- Decimal rendering of a natural number, fuel-structured so that it
computes by kernel reduction.  `natChars` below always supplies enough
fuel. -/
def natCharsAux : Nat → Nat → List Char
  | 0, _ => []
  | fuel + 1, n =>
    if n < 10 then [digitChar n]
    else natCharsAux fuel (n / 10) ++ [digitChar (n % 10)]

/-- Decimal rendering of a natural number, as produced by JS template
interpolation of the `Date.now()` integer. -/
def natChars (n : Nat) : List Char := natCharsAux (n + 1) n

/-- Numeric value of a decimal digit character. -/
def digitVal (c : Char) : Nat := c.toNat - 48

/-- Numeric value of a digit string; a left inverse of `natChars`. -/
def charsVal (l : List Char) : Nat :=
  l.foldl (fun a c => 10 * a + digitVal c) 0

/-- A host-level error value (a thrown exception or an error event). -/
structure JsError where
  code : Nat
deriving DecidableEq

/-- The attributes the loader sets on the script element it creates. -/
structure ScriptElem where
  src : List Char
  deferAttr : Bool
  typeAttr : List Char
  asyncAttr : Bool
deriving DecidableEq

/-- The recognized fields of the `options` argument: `async` (absent,
or an explicit boolean) and whether an `onError` hook was supplied. -/
structure Options where
  async : Option Bool
  onError : Bool
deriving DecidableEq

/-- The host environment a single `load` call observes: the current
clock reading (`Date.now()`), the location origin used as the base for
URL resolution, the host URL resolver (`new URL(m, base).href`, which
may throw), and whether element creation / insertion throw. -/
structure Host where
  nowMs : Nat
  origin : List Char
  resolveURL : List Char → List Char → Except JsError (List Char)
  createScriptErr : Option JsError
  appendErr : Option JsError

/-- The loader's process-wide state: the names marked loaded, and the
script elements appended to the document head. -/
structure LoaderState where
  loadedModules : List (List Char)
  scripts : List ScriptElem
deriving DecidableEq

/-- Truthiness test of the registry: `loadedModules[name]` is set. -/
def isLoaded (reg : List (List Char)) (n : List Char) : Bool :=
  reg.any (fun m => m == n)

/-- The assignment `loadedModules[name] = true`: observationally,
insert the name if absent. -/
def markLoaded (reg : List (List Char)) (n : List Char) : List (List Char) :=
  if isLoaded reg n then reg else n :: reg

/-- Observable actions of the loader: console diagnostics, promise
settlement (with whether the settle function was `.call`ed on the
binding context), `onError` hook invocation, and element insertion. -/
inductive Ev where
  | warned (name : List Char)
  | resolved (bound : Bool)
  | rejected (e : JsError) (bound : Bool)
  | hookCalled (e : JsError) (bound : Bool)
  | consoleError (e : JsError)
  | inserted (el : ScriptElem)
  | markedLoaded (name : List Char)
deriving DecidableEq

/-- The state of the returned promise when `load` returns: resolved at
once by deduplication, pending on an inserted element (recording the
freshness token and the token-carrying requested locator), or rejected
by a caught synchronous exception. -/
inductive SyncResult where
  | dedupResolved
  | pending (token : Nat) (requested : List Char) (el : ScriptElem)
  | syncRejected (e : JsError)
deriving DecidableEq

/-- The content type the loader sets, `'application/javascript'`. -/
def scriptTypeAttr : List Char := "application/javascript".toList

/-- The literal query text `?cacheBuster=` the loader appends. -/
def cbQuery : List Char := "?cacheBuster=".toList

/-- Host default of the `async` attribute for a dynamically created
script element. -/
def scriptDefaultAsync : Bool := true

/-- The element the loader builds: `defer = true`, the script content
type, `async = true` unless `options.async` is exactly `false` (in
which case the host default is left in place), and `src` set to the
resolved URL. -/
def mkScriptElem (opts : Options) (href : List Char) : ScriptElem :=
  { src := href
    deferAttr := true
    typeAttr := scriptTypeAttr
    asyncAttr := if opts.async = some false then scriptDefaultAsync else true }

/-- The diagnostics-and-settlement sequence shared by the `catch`
block and the `onerror` handler: log the error, invoke the `onError`
hook when supplied, then reject with the same error. -/
def errorEvents (opts : Options) (bound : Bool) (e : JsError) : List Ev :=
  Ev.consoleError e ::
    ((if opts.onError then [Ev.hookCalled e bound] else []) ++ [Ev.rejected e bound])

/-- The `try` block of `load`: parse the locator, short-circuit on a
registry hit, otherwise read the clock, append the `cacheBuster` query,
resolve the URL against the location origin, create the element and
append it to the document head.  A thrown step surfaces as `.error`. -/
def loadTry (st : LoaderState) (h : Host) (locator : List Char)
    (opts : Options) (bound : Bool) :
    Except JsError (LoaderState × List Ev × SyncResult) :=
  let name := (schema locator).moduleName
  if isLoaded st.loadedModules name then
    .ok (st, [Ev.warned name, Ev.resolved bound], SyncResult.dedupResolved)
  else
    let cacheBuster := h.nowMs
    let requested := locator ++ cbQuery ++ natChars cacheBuster
    match h.resolveURL requested h.origin with
    | .error e => .error e
    | .ok href =>
      match h.createScriptErr with
      | some e => .error e
      | none =>
        let el := mkScriptElem opts href
        match h.appendErr with
        | some e => .error e
        | none =>
          .ok ({ st with scripts := st.scripts ++ [el] }, [Ev.inserted el],
               SyncResult.pending cacheBuster requested el)

/-- The synchronous part of `load`: the `try` block wrapped in the
`catch` block, inside the promise executor.  The result records the
next loader state, the emitted events, and the promise's state. -/
def load (st : LoaderState) (h : Host) (locator : List Char)
    (opts : Options) (bound : Bool) : LoaderState × List Ev × SyncResult :=
  match loadTry st h locator opts bound with
  | .ok r => r
  | .error e => (st, errorEvents opts bound e, SyncResult.syncRejected e)

/-- The operation `bust`, a pure alias of `load`. -/
def bust (st : LoaderState) (h : Host) (locator : List Char)
    (opts : Options) (bound : Bool) : LoaderState × List Ev × SyncResult :=
  load st h locator opts bound

/-- The `element.onload` handler for a pending load of `name`: mark
the name loaded, then resolve. -/
def onloadHandler (st : LoaderState) (name : List Char) (bound : Bool) :
    LoaderState × List Ev :=
  ({ st with loadedModules := markLoaded st.loadedModules name },
   [Ev.markedLoaded name, Ev.resolved bound])

/-- The `element.onerror` handler: log, invoke the hook when supplied,
reject; the loader state is untouched. -/
def onerrorHandler (st : LoaderState) (opts : Options) (bound : Bool)
    (e : JsError) : LoaderState × List Ev :=
  (st, errorEvents opts bound e)

/-- One observable operation on the loader: a `load` call, or the host
delivering a load or error event for a previously inserted element. -/
inductive LOp where
  | call (h : Host) (locator : List Char) (opts : Options) (bound : Bool)
  | fireLoad (name : List Char) (bound : Bool)
  | fireError (opts : Options) (bound : Bool) (e : JsError)

/-- The loader's step function over observable operations. -/
def stepL (st : LoaderState) : LOp → LoaderState × List Ev
  | .call h l o b => ((load st h l o b).1, (load st h l o b).2.1)
  | .fireLoad n b => onloadHandler st n b
  | .fireError o b e => onerrorHandler st o b e

/-- A JS value, as far as the UMD wrapper and `$noConflict` observe
one: `===` is modelled by equality, with objects compared by identity
token. -/
inductive JsValue where
  | undefined
  | null
  | bool (b : Bool)
  | num (n : Int)
  | str (s : List Char)
  | obj (id : Nat)
deriving DecidableEq

/-- JS truthiness. -/
def truthy : JsValue → Bool
  | .undefined => false
  | .null => false
  | .bool b => b
  | .num n => n != 0
  | .str s => s != []
  | .obj _ => true

/-- The shared global namespace, as far as the loader touches it: the
`buster` slot. -/
structure GlobalEnv where
  buster : JsValue
deriving DecidableEq

/-- The `$noConflict` operation: clear the global `buster` slot when it still holds
this very loader instance, and return the instance in every case. -/
def noConflict (g : GlobalEnv) (self : JsValue) : GlobalEnv × JsValue :=
  if g.buster = self then ({ buster := JsValue.undefined }, self) else (g, self)

/-- The global-attachment branch of the UMD wrapper: warn when
`global.buster` is truthy, and assign the factory result when
`global.buster` is falsy.  Returns the resulting environment and
whether the warning was emitted. -/
def umdInit (g : GlobalEnv) (factoryVal : JsValue) : GlobalEnv × Bool :=
  let warned := truthy g.buster
  let g' := if truthy g.buster then g else { buster := factoryVal }
  (g', warned)

/-- Concrete locator used by witnesses. -/
def loc0 : List Char := "/modules/bustMe.js".toList

/-- A loader state in which `bustMe` is already marked loaded. -/
def st0c : LoaderState :=
  { loadedModules := ["bustMe".toList], scripts := [] }

/-- The empty loader state. -/
def stEmpty : LoaderState := { loadedModules := [], scripts := [] }

/-- A host whose operations all succeed and whose resolver prepends
the base to the request. -/
def host0 : Host :=
  { nowMs := 5
    origin := "https://example.test".toList
    resolveURL := fun r b => .ok (b ++ r)
    createScriptErr := none
    appendErr := none }

/-- The host `host0`, one millisecond later. -/
def host1 : Host :=
  { host0 with nowMs := 6 }

/-- A host whose URL resolver throws. -/
def hostErr : Host :=
  { host0 with resolveURL := fun _ _ => .error { code := 7 } }

/-- Options carrying an `onError` hook. -/
def optsH : Options := { async := none, onError := true }

/-- Options without an `onError` hook. -/
def opts0 : Options := { async := none, onError := false }

/-- The URL `host0`'s resolver produces for `loc0`. -/
def href0 : List Char := host0.origin ++ (loc0 ++ cbQuery ++ natChars host0.nowMs)

/-- The URL `host1`'s resolver produces for `loc0`. -/
def href1 : List Char := host1.origin ++ (loc0 ++ cbQuery ++ natChars host1.nowMs)

/-! ## Helper lemmas -/

theorem jsSplit_ne_nil (sep : Char) (l : List Char) : jsSplit sep l ≠ [] := by
  cases l with
  | nil => simp [jsSplit]
  | cons c cs =>
    simp only [jsSplit]
    cases jsSplit sep cs with
    | nil => simp
    | cons h t => by_cases hc : c = sep <;> simp [hc]

theorem jsSplit_headD (sep : Char) (l : List Char) :
    (jsSplit sep l).headD [] = l.takeWhile (fun c => c != sep) := by
  induction l with
  | nil => rfl
  | cons c cs ih =>
    simp only [jsSplit]
    cases h : jsSplit sep cs with
    | nil => exact absurd h (jsSplit_ne_nil sep cs)
    | cons hh tt =>
      rw [h] at ih
      simp only [List.headD_cons] at ih
      by_cases hc : c = sep
      · subst hc
        simp [List.takeWhile_cons]
      · simp [hc, List.takeWhile_cons, ih]

theorem jsSplit_getD_one (sep : Char) (l : List Char)
    (hl : hasChar sep l = true) :
    (jsSplit sep l).getD 1 [] =
      ((l.dropWhile (fun c => c != sep)).drop 1).takeWhile (fun c => c != sep) := by
  induction l with
  | nil => simp [hasChar] at hl
  | cons c cs ih =>
    simp only [jsSplit]
    cases h : jsSplit sep cs with
    | nil => exact absurd h (jsSplit_ne_nil sep cs)
    | cons hh tt =>
      by_cases hc : c = sep
      · have hhead := jsSplit_headD sep cs
        rw [h] at hhead
        simp only [List.headD_cons] at hhead
        simp [hc, List.dropWhile_cons, hhead]
      · have hcs : hasChar sep cs = true := by
          simpa [hasChar, hc] using hl
        have h2 := ih hcs
        rw [h] at h2
        simpa [hc, List.dropWhile_cons] using h2

theorem hasChar_false_takeWhile (sep : Char) (l : List Char)
    (hl : hasChar sep l = false) : l.takeWhile (fun c => c != sep) = l := by
  induction l with
  | nil => rfl
  | cons c cs ih =>
    simp only [hasChar] at hl
    by_cases hc : c = sep
    · simp [hc] at hl
    · simp only [if_neg hc] at hl
      simp [List.takeWhile_cons, hc, ih hl]

theorem digitVal_digitChar : ∀ d, d < 10 → digitVal (digitChar d) = d := by
  decide

theorem charsVal_natCharsAux :
    ∀ fuel n, n < fuel → charsVal (natCharsAux fuel n) = n := by
  intro fuel
  induction fuel with
  | zero => intro n hn; omega
  | succ g ih =>
    intro n hn
    simp only [natCharsAux]
    by_cases h10 : n < 10
    · simp [h10, charsVal, digitVal_digitChar n h10]
    · simp only [h10, if_false]
      have hdl : n / 10 < n := Nat.div_lt_self (by omega) (by omega)
      have hdg : n / 10 < g := by omega
      have hmod : n % 10 < 10 := Nat.mod_lt n (by omega)
      have hrec := ih (n / 10) hdg
      rw [charsVal, List.foldl_append]
      rw [charsVal] at hrec
      rw [hrec]
      simp [digitVal_digitChar (n % 10) hmod]
      omega

theorem charsVal_natChars (n : Nat) : charsVal (natChars n) = n :=
  charsVal_natCharsAux (n + 1) n (Nat.lt_succ_self n)

theorem natChars_inj {m n : Nat} (h : natChars m = natChars n) : m = n := by
  have hm := charsVal_natChars m
  rw [h, charsVal_natChars] at hm
  exact hm.symm

theorem isLoaded_cons (m n : List Char) (reg : List (List Char)) :
    isLoaded (m :: reg) n = (m == n || isLoaded reg n) := by
  simp [isLoaded]

theorem isLoaded_markLoaded_mono (reg : List (List Char)) (m n : List Char)
    (h : isLoaded reg n = true) : isLoaded (markLoaded reg m) n = true := by
  rw [markLoaded]
  split
  · exact h
  · simp [isLoaded_cons, h]

theorem isLoaded_markLoaded_new (reg : List (List Char)) (m n : List Char)
    (hn : isLoaded reg n = false)
    (h : isLoaded (markLoaded reg m) n = true) : m = n := by
  rw [markLoaded] at h
  by_cases hm : isLoaded reg m = true
  · rw [if_pos hm] at h
    rw [h] at hn
    exact absurd hn (by simp)
  · rw [if_neg hm] at h
    rw [isLoaded_cons, hn, Bool.or_false] at h
    exact eq_of_beq h

theorem loadTry_cases (st : LoaderState) (h : Host) (l : List Char)
    (o : Options) (b : Bool) :
    (∃ e, loadTry st h l o b = Except.error e) ∨
    (isLoaded st.loadedModules (schema l).moduleName = true ∧
      loadTry st h l o b =
        Except.ok (st, [Ev.warned (schema l).moduleName, Ev.resolved b],
          SyncResult.dedupResolved)) ∨
    (isLoaded st.loadedModules (schema l).moduleName = false ∧
      ∃ href,
        h.resolveURL (l ++ cbQuery ++ natChars h.nowMs) h.origin = Except.ok href ∧
        h.createScriptErr = none ∧ h.appendErr = none ∧
        loadTry st h l o b =
          Except.ok ({ st with scripts := st.scripts ++ [mkScriptElem o href] },
            [Ev.inserted (mkScriptElem o href)],
            SyncResult.pending h.nowMs (l ++ cbQuery ++ natChars h.nowMs)
              (mkScriptElem o href))) := by
  by_cases hd : isLoaded st.loadedModules (schema l).moduleName = true
  · right; left
    exact ⟨hd, by rw [loadTry, if_pos hd]⟩
  · have hd' : isLoaded st.loadedModules (schema l).moduleName = false := by
      simpa using hd
    cases hr : h.resolveURL (l ++ cbQuery ++ natChars h.nowMs) h.origin with
    | error e =>
      left
      exact ⟨e, by rw [loadTry, if_neg hd]; simp only [hr]⟩
    | ok href =>
      cases hc : h.createScriptErr with
      | some e =>
        left
        exact ⟨e, by rw [loadTry, if_neg hd]; simp only [hr, hc]⟩
      | none =>
        cases ha : h.appendErr with
        | some e =>
          left
          exact ⟨e, by rw [loadTry, if_neg hd]; simp only [hr, hc, ha]⟩
        | none =>
          right; right
          refine ⟨hd', href, rfl, rfl, rfl, ?_⟩
          rw [loadTry, if_neg hd]
          simp only [hr, hc, ha]

theorem load_loadedModules (st : LoaderState) (h : Host) (l : List Char)
    (o : Options) (b : Bool) :
    (load st h l o b).1.loadedModules = st.loadedModules := by
  rcases loadTry_cases st h l o b with ⟨e, he⟩ | ⟨hd, hok⟩ | ⟨hd, href, hr, hc, ha, hok⟩
  · rw [load, he]
  · rw [load, hok]
  · rw [load, hok]

theorem load_pending_inv (st : LoaderState) (h : Host) (l : List Char)
    (o : Options) (b : Bool) (tok : Nat) (req : List Char) (el : ScriptElem)
    (hp : (load st h l o b).2.2 = SyncResult.pending tok req el) :
    tok = h.nowMs ∧ req = l ++ cbQuery ++ natChars h.nowMs := by
  rcases loadTry_cases st h l o b with ⟨e, he⟩ | ⟨hd, hok⟩ | ⟨hd, href, hr, hc, ha, hok⟩
  · rw [load, he] at hp
    simp [errorEvents] at hp
  · rw [load, hok] at hp
    simp at hp
  · rw [load, hok] at hp
    simp only [SyncResult.pending.injEq] at hp
    exact ⟨hp.1.symm, hp.2.1.symm⟩

/-! ## Claim theorems -/

/-- Claim C1: a `load` call whose locator parses to a name already
recorded in the registry warns and resolves immediately with the state
unchanged — no element is created or inserted and no freshness token is
produced; registry membership persists across every operation; and a
name enters the registry only through a successful load event. -/
theorem C1_dedup_idempotent_registry :
    (∀ st h l o b, isLoaded st.loadedModules (schema l).moduleName = true →
        load st h l o b =
          (st, [Ev.warned (schema l).moduleName, Ev.resolved b],
            SyncResult.dedupResolved)) ∧
    (∀ st op n, isLoaded st.loadedModules n = true →
        isLoaded (stepL st op).1.loadedModules n = true) ∧
    (∀ st op n, isLoaded st.loadedModules n = false →
        isLoaded (stepL st op).1.loadedModules n = true →
        ∃ b, op = LOp.fireLoad n b) := by
  refine ⟨?_, ?_, ?_⟩
  · intro st h l o b hd
    rw [load, loadTry, if_pos hd]
  · intro st op n hn
    cases op with
    | call h l o b =>
      simpa [stepL, load_loadedModules] using hn
    | fireLoad m b =>
      simp only [stepL, onloadHandler]
      exact isLoaded_markLoaded_mono _ m n hn
    | fireError o b e =>
      simpa [stepL, onerrorHandler] using hn
  · intro st op n hn hafter
    cases op with
    | call h l o b =>
      simp only [stepL, load_loadedModules] at hafter
      rw [hn] at hafter
      exact absurd hafter (by simp)
    | fireLoad m b =>
      simp only [stepL, onloadHandler] at hafter
      have := isLoaded_markLoaded_new st.loadedModules m n hn hafter
      exact ⟨b, by rw [this]⟩
    | fireError o b e =>
      simp only [stepL, onerrorHandler] at hafter
      rw [hn] at hafter
      exact absurd hafter (by simp)

/-- Witness for C1: re-loading `/modules/bustMe.js` once `bustMe` is
marked loaded warns and resolves at once with unchanged state, and a
name enters the empty registry only through a load event. -/
theorem C1_witness :
    load st0c host0 loc0 opts0 false =
      (st0c, [Ev.warned (schema loc0).moduleName, Ev.resolved false],
        SyncResult.dedupResolved) ∧
    (∃ b, LOp.fireLoad ("x".toList) true = LOp.fireLoad ("x".toList) b) :=
  ⟨C1_dedup_idempotent_registry.1 st0c host0 loc0 opts0 false (by decide),
   C1_dedup_idempotent_registry.2.2 stEmpty (LOp.fireLoad ("x".toList) true)
     ("x".toList) (by decide) (by decide)⟩

/-- Claim C2: `load` always hands back a promise outcome — immediate
deduplicated resolution, a pending injection, or a caught-and-rejected
error — and whenever the `try` block throws `e`, the call logs, routes
through the `onError` hook when supplied, and rejects with that same
`e`, never raising it to the caller. -/
theorem C2_load_never_throws :
    ∀ st h l o b,
      ((load st h l o b).2.2 = SyncResult.dedupResolved ∨
        (∃ tok req el, (load st h l o b).2.2 = SyncResult.pending tok req el) ∨
        (∃ e, (load st h l o b).2.2 = SyncResult.syncRejected e)) ∧
      (∀ e, loadTry st h l o b = Except.error e →
        load st h l o b =
          (st, Ev.consoleError e ::
            ((if o.onError then [Ev.hookCalled e b] else []) ++ [Ev.rejected e b]),
            SyncResult.syncRejected e)) := by
  intro st h l o b
  constructor
  · rcases loadTry_cases st h l o b with ⟨e, he⟩ | ⟨hd, hok⟩ | ⟨hd, href, hr, hc, ha, hok⟩
    · right; right
      exact ⟨e, by rw [load, he]⟩
    · left
      rw [load, hok]
    · right; left
      exact ⟨h.nowMs, l ++ cbQuery ++ natChars h.nowMs, mkScriptElem o href,
        by rw [load, hok]⟩
  · intro e he
    rw [load, he]
    rfl

/-- Witness for C2: with a host whose URL resolver throws error 7, the
call is caught, the hook is invoked, and the promise rejects with that
same error. -/
theorem C2_witness :
    load stEmpty hostErr loc0 optsH true =
      (stEmpty, Ev.consoleError { code := 7 } ::
        ((if optsH.onError then [Ev.hookCalled { code := 7 } true] else []) ++
          [Ev.rejected { code := 7 } true]),
        SyncResult.syncRejected { code := 7 }) :=
  (C2_load_never_throws stEmpty hostErr loc0 optsH true).2 { code := 7 } (by rfl)

/-- Claim C3: for a non-deduplicated call whose host steps succeed, the
injected element's source URL is the host-resolved form — against the
host's location origin — of the locator with `?cacheBuster=<epoch-ms>`
appended (by plain text append, also when the locator already carries a
query string). -/
theorem C3_url_contract :
    ∀ st h l o b href,
      isLoaded st.loadedModules (schema l).moduleName = false →
      h.resolveURL (l ++ cbQuery ++ natChars h.nowMs) h.origin = Except.ok href →
      h.createScriptErr = none →
      h.appendErr = none →
      load st h l o b =
        ({ st with scripts := st.scripts ++ [mkScriptElem o href] },
          [Ev.inserted (mkScriptElem o href)],
          SyncResult.pending h.nowMs (l ++ cbQuery ++ natChars h.nowMs)
            (mkScriptElem o href)) ∧
      (mkScriptElem o href).src = href := by
  intro st h l o b href hd hr hc ha
  constructor
  · rw [load, loadTry, if_neg (by simp [hd])]
    simp only [hr, hc, ha]
  · rfl

/-- Witness for C3: loading `/modules/bustMe.js` on a fresh state with
the all-succeeding host inserts one element whose source is the
resolved token-carrying URL. -/
theorem C3_witness :
    load stEmpty host0 loc0 opts0 false =
      ({ stEmpty with scripts := stEmpty.scripts ++ [mkScriptElem opts0 href0] },
        [Ev.inserted (mkScriptElem opts0 href0)],
        SyncResult.pending host0.nowMs (loc0 ++ cbQuery ++ natChars host0.nowMs)
          (mkScriptElem opts0 href0)) ∧
      (mkScriptElem opts0 href0).src = href0 :=
  C3_url_contract stEmpty host0 loc0 opts0 false href0 (by decide) (by rfl) rfl rfl

/-- Claim C4: when the injected element reports failure `e` and an
`onError` hook was supplied, the handler logs, invokes the hook exactly
once with `e` (on the binding context when given), and then rejects the
promise with that same `e`. -/
theorem C4_onerror_hook :
    ∀ st o b e, o.onError = true →
      onerrorHandler st o b e =
        (st, [Ev.consoleError e, Ev.hookCalled e b, Ev.rejected e b]) ∧
      (onerrorHandler st o b e).2.countP
        (fun ev => match ev with | Ev.hookCalled _ _ => true | _ => false) = 1 := by
  intro st o b e ho
  constructor
  · rw [onerrorHandler, errorEvents, ho]
    rfl
  · rw [onerrorHandler, errorEvents, ho]
    rfl

/-- Witness for C4: a simulated failure event with error 9 and a
supplied hook logs, calls the hook once, then rejects with error 9. -/
theorem C4_witness :
    onerrorHandler stEmpty optsH true { code := 9 } =
      (stEmpty, [Ev.consoleError { code := 9 }, Ev.hookCalled { code := 9 } true,
        Ev.rejected { code := 9 } true]) ∧
    (onerrorHandler stEmpty optsH true { code := 9 }).2.countP
      (fun ev => match ev with | Ev.hookCalled _ _ => true | _ => false) = 1 :=
  C4_onerror_hook stEmpty optsH true { code := 9 } rfl

/-- Claim C5: when the final path segment contains a dot, `schema`
returns the text before the first dot as the module name and the
substring between the first and (if present) second dot as the version;
with no dot, the whole segment is the name and the version is empty. -/
theorem C5_schema_segments (url : List Char) :
    (hasChar '.' (lastSeg url) = true →
      (schema url).moduleName = beforeFirstDot (lastSeg url) ∧
      (schema url).version = betweenDots (lastSeg url)) ∧
    (hasChar '.' (lastSeg url) = false →
      (schema url).moduleName = lastSeg url ∧ (schema url).version = []) := by
  constructor
  · intro hdot
    rw [schema]
    simp only [hdot, if_true]
    constructor
    · rw [beforeFirstDot]
      exact jsSplit_headD '.' (lastSeg url)
    · rw [betweenDots, afterFirstDot]
      exact jsSplit_getD_one '.' (lastSeg url) hdot
  · intro hdot
    rw [schema]
    simp [hdot]

/-- Witness for C5: `/x/missing.v2.js` has a dotted final segment and
parses to name `missing`, version `v2`; `/modules/bustMe` has no dot
and parses whole, with an empty version. -/
theorem C5_witness :
    ((schema ("/x/missing.v2.js".toList)).moduleName =
        beforeFirstDot (lastSeg ("/x/missing.v2.js".toList)) ∧
      (schema ("/x/missing.v2.js".toList)).version =
        betweenDots (lastSeg ("/x/missing.v2.js".toList))) ∧
    ((schema ("/modules/bustMe".toList)).moduleName =
        lastSeg ("/modules/bustMe".toList) ∧
      (schema ("/modules/bustMe".toList)).version = []) :=
  ⟨(C5_schema_segments _).1 (by decide), (C5_schema_segments _).2 (by decide)⟩

/-- Claim C6 counterexample: for `/x/missing.v2.js`, whose final
segment carries two dots, `schema` does not return everything after the
first dot as the version: the version is `v2`, not `v2.js`. -/
theorem C6_counterexample :
    (schema ("/x/missing.v2.js".toList)).version ≠
      afterFirstDot (lastSeg ("/x/missing.v2.js".toList)) ∧
    (schema ("/x/missing.v2.js".toList)).version = "v2".toList ∧
    afterFirstDot (lastSeg ("/x/missing.v2.js".toList)) = "v2.js".toList := by
  decide

/-- Claim C6 amended: for a locator with a dotted final segment,
`schema` returns as version the second dot-delimited part — the
substring between the first and (if present) second dot — not the
entire text after the first dot. -/
theorem C6_amended_version (url : List Char)
    (hdot : hasChar '.' (lastSeg url) = true) :
    (schema url).version = betweenDots (lastSeg url) := by
  rw [schema]
  simp only [hdot, if_true]
  rw [betweenDots, afterFirstDot]
  exact jsSplit_getD_one '.' (lastSeg url) hdot

/-- Witness for the amended C6, at `/x/missing.v2.js`. -/
theorem C6_amended_witness :
    (schema ("/x/missing.v2.js".toList)).version =
      betweenDots (lastSeg ("/x/missing.v2.js".toList)) :=
  C6_amended_version _ (by decide)

/-- Claim C7: `$noConflict` clears the global slot exactly when the
slot still holds this loader instance, leaves a reassigned slot
untouched, and returns the loader instance in every case. -/
theorem C7_noConflict_contract :
    ∀ g self, (noConflict g self).2 = self ∧
      (g.buster = self → (noConflict g self).1.buster = JsValue.undefined) ∧
      (g.buster ≠ self → (noConflict g self).1 = g) := by
  intro g self
  refine ⟨?_, ?_, ?_⟩
  · rw [noConflict]
    split <;> rfl
  · intro hb
    rw [noConflict, if_pos hb]
  · intro hb
    rw [noConflict, if_neg hb]

/-- Witness for C7: with the slot holding the loader the call clears
it; with the slot reassigned to another object it is left untouched;
the loader is returned either way. -/
theorem C7_witness :
    (noConflict { buster := JsValue.obj 0 } (JsValue.obj 0)).1.buster =
      JsValue.undefined ∧
    (noConflict { buster := JsValue.obj 1 } (JsValue.obj 0)).1 =
      { buster := JsValue.obj 1 } ∧
    (noConflict { buster := JsValue.obj 1 } (JsValue.obj 0)).2 = JsValue.obj 0 :=
  ⟨(C7_noConflict_contract _ _).2.1 rfl,
   (C7_noConflict_contract _ _).2.2 (by decide),
   (C7_noConflict_contract _ _).1⟩

/-- Claim C8: every non-deduplicated call's freshness token is that
call's own clock reading; across two such calls for the same locator
the tokens are non-decreasing whenever the clock is, and distinct
tokens — in particular a strictly advanced clock — make the constructed
URLs observably distinct. -/
theorem C8_fresh_tokens (st1 st2 : LoaderState) (h1 h2 : Host) (l : List Char)
    (o1 o2 : Options) (b1 b2 : Bool) (tok1 tok2 : Nat) (req1 req2 : List Char)
    (el1 el2 : ScriptElem)
    (hp1 : (load st1 h1 l o1 b1).2.2 = SyncResult.pending tok1 req1 el1)
    (hp2 : (load st2 h2 l o2 b2).2.2 = SyncResult.pending tok2 req2 el2) :
    tok1 = h1.nowMs ∧ tok2 = h2.nowMs ∧
    (h1.nowMs ≤ h2.nowMs → tok1 ≤ tok2) ∧
    (tok1 ≠ tok2 → req1 ≠ req2) ∧
    (h1.nowMs < h2.nowMs → req1 ≠ req2) := by
  obtain ⟨ht1, hq1⟩ := load_pending_inv st1 h1 l o1 b1 tok1 req1 el1 hp1
  obtain ⟨ht2, hq2⟩ := load_pending_inv st2 h2 l o2 b2 tok2 req2 el2 hp2
  subst ht1
  subst ht2
  refine ⟨rfl, rfl, fun hle => hle, ?_, ?_⟩
  · intro hne heq
    rw [hq1, hq2] at heq
    exact hne (natChars_inj (List.append_cancel_left heq))
  · intro hlt heq
    rw [hq1, hq2] at heq
    exact absurd (natChars_inj (List.append_cancel_left heq)) (Nat.ne_of_lt hlt)

/-- Witness for C8: two injections of `/modules/bustMe.js` at clock
readings 5 and 6 carry those tokens and distinct constructed URLs. -/
theorem C8_witness :
    (5 : Nat) = host0.nowMs ∧ (6 : Nat) = host1.nowMs ∧
    (host0.nowMs ≤ host1.nowMs → (5 : Nat) ≤ 6) ∧
    ((5 : Nat) ≠ 6 →
      loc0 ++ cbQuery ++ natChars host0.nowMs ≠
        loc0 ++ cbQuery ++ natChars host1.nowMs) ∧
    (host0.nowMs < host1.nowMs →
      loc0 ++ cbQuery ++ natChars host0.nowMs ≠
        loc0 ++ cbQuery ++ natChars host1.nowMs) :=
  C8_fresh_tokens stEmpty stEmpty host0 host1 loc0 opts0 opts0 false false 5 6
    (loc0 ++ cbQuery ++ natChars host0.nowMs)
    (loc0 ++ cbQuery ++ natChars host1.nowMs)
    (mkScriptElem opts0 href0) (mkScriptElem opts0 href1) (by rfl) (by rfl)

/-- Claim C9: a failed load leaves the registry as it was — the error
event handler returns the state untouched, no `load` call (including
one whose caught exception rejects) modifies the registry, and a later
call for a name absent from the registry is not deduplicated. -/
theorem C9_failure_no_mark :
    (∀ st o b e, (stepL st (LOp.fireError o b e)).1 = st) ∧
    (∀ st h l o b, (load st h l o b).1.loadedModules = st.loadedModules) ∧
    (∀ st h l o b, isLoaded st.loadedModules (schema l).moduleName = false →
      (load st h l o b).2.2 ≠ SyncResult.dedupResolved) := by
  refine ⟨?_, ?_, ?_⟩
  · intro st o b e
    rfl
  · exact load_loadedModules
  · intro st h l o b hd hcontra
    rcases loadTry_cases st h l o b with ⟨e, he⟩ | ⟨hd2, hok⟩ | ⟨hd2, href, hr, hc, ha, hok⟩
    · rw [load, he] at hcontra
      exact absurd hcontra (by simp)
    · rw [hd] at hd2
      exact absurd hd2 (by simp)
    · rw [load, hok] at hcontra
      exact absurd hcontra (by simp)

/-- Witness for C9: a fired error leaves the marked state unchanged, a
throwing call leaves the empty registry empty, and a call for the
unmarked `bustMe` is not deduplicated. -/
theorem C9_witness :
    (stepL st0c (LOp.fireError optsH false { code := 3 })).1 = st0c ∧
    (load stEmpty hostErr loc0 opts0 false).1.loadedModules =
      stEmpty.loadedModules ∧
    (load stEmpty host0 loc0 opts0 false).2.2 ≠ SyncResult.dedupResolved :=
  ⟨C9_failure_no_mark.1 st0c optsH false { code := 3 },
   C9_failure_no_mark.2.1 stEmpty hostErr loc0 opts0 false,
   C9_failure_no_mark.2.2 stEmpty host0 loc0 opts0 false (by decide)⟩

/-- Claim C10 counterexample: a global `buster` slot occupied by the
value `false` is not empty, yet initialization emits no warning and
overwrites it with the new loader instance — against the claim that any
occupied slot draws a warning and is left in place. -/
theorem C10_counterexample :
    GlobalEnv.buster { buster := JsValue.bool false } ≠ JsValue.undefined ∧
    (umdInit { buster := JsValue.bool false } (JsValue.obj 0)).2 = false ∧
    (umdInit { buster := JsValue.bool false } (JsValue.obj 0)).1.buster =
      JsValue.obj 0 := by
  decide

/-- Claim C10 amended: at initialization, a truthy value in the global
`buster` slot draws the warning and is left in place; the new loader
instance is attached, without warning, exactly when the current slot
value is falsy (undefined, but also null, false, 0, or the empty
string). -/
theorem C10_amended_truthy_guard (g : GlobalEnv) (factoryVal : JsValue) :
    (truthy g.buster = true → umdInit g factoryVal = (g, true)) ∧
    (truthy g.buster = false →
      umdInit g factoryVal = ({ buster := factoryVal }, false)) := by
  constructor
  · intro ht
    rw [umdInit]
    simp [ht]
  · intro ht
    rw [umdInit]
    simp [ht]

/-- Witness for the amended C10: an object in the slot is warned about
and kept; an undefined slot is filled silently. -/
theorem C10_amended_witness :
    umdInit { buster := JsValue.obj 5 } (JsValue.obj 0) =
      ({ buster := JsValue.obj 5 }, true) ∧
    umdInit { buster := JsValue.undefined } (JsValue.obj 0) =
      ({ buster := JsValue.obj 0 }, false) :=
  ⟨(C10_amended_truthy_guard _ _).1 rfl, (C10_amended_truthy_guard _ _).2 rfl⟩
